import Mathlib

/-!
Verification of the settings-resolution and command-synthesis engine of the
`Vscode-C-Cpp-Runner` extension, shallowly embedded in Lean 4.

The embedding translates the TypeScript/JavaScript sources:
* `src/out/src/utils.js` — pure utilities (`getArchitecture`, `isCppSourceFile`,
  `isCSourceFile`, `getLanguage`) and the task synthesis `executeTask`;
* `src/src/provider/settingsProvider.ts` — the `SettingsProvider` class
  (`loadLocalSettings` warning normalization, `commandsAlreadyStored`,
  `searchMsvcToolsPath`, `getArchitecture`, `update`, `deleteCallback`);
* `src/unnamed/part_001` — `getActivationState` and helpers.

File-system reads (`fs.readdirSync`, `fs.accessSync`, `child_process.execSync`)
and the parsed JSON documents are abstracted as explicit parameters: a directory
read becomes the list of names it returns, `pathExists` becomes a boolean-valued
function on paths, a JSON document becomes an association list or a record of
optional fields, and a process invocation becomes a function from the command
string to `Option` of its output (`none` = the call threw).

JavaScript string primitives (`split`, `includes`, `String(array)`) are
re-implemented below on `List Char` so that all definitions are executable and
kernel-reducible.
-/

/-! ## Enumerations from `src/utils/types` -/

inductive OperatingSystems
  | windows
  | linux
  | mac
deriving DecidableEq, Repr

inductive Architectures
  | x86
  | x64
deriving DecidableEq, Repr

inductive Languages
  | c
  | cpp
deriving DecidableEq, Repr

inductive Builds
  | debug
  | release
deriving DecidableEq, Repr

/-- The string value of the TypeScript string-enum `Builds`
(`Builds.debug = 'debug'`, `Builds.release = 'release'`), as used in
template literals such as `` `build/${buildMode}/` ``. -/
def buildModeValue : Builds → String
  | Builds.debug => "debug"
  | Builds.release => "release"

/-! ## JavaScript string primitives, modelled on `List Char` -/

/-- Does the character list `s` start with the character list `pat`? -/
def charsLead : List Char → List Char → Bool
  | [], _ => true
  | _ :: _, [] => false
  | p :: ps, c :: cs => p == c && charsLead ps cs

/-- Does the character list `s` contain `pat` as a contiguous run?
Models JavaScript `String.prototype.includes`. -/
def charsContain (pat : List Char) : List Char → Bool
  | [] => charsLead pat []
  | c :: cs => charsLead pat (c :: cs) || charsContain pat cs

/-- JavaScript `s.includes(pat)` (substring containment). -/
def jsIncludes (s pat : String) : Bool :=
  charsContain pat.data s.data

/-- Fuel-indexed worker for `jsSplit`: scans `s` left to right, cutting at each
(non-overlapping) occurrence of the non-empty separator `sep`.  The fuel is
always at least `s.length + 1`, so the `0` case is never reached. -/
def jsSplitGo (sep : List Char) : Nat → List Char → List Char → List (List Char)
  | _, [], acc => [acc.reverse]
  | 0, s, acc => [acc.reverse ++ s]
  | fuel + 1, c :: cs, acc =>
    if charsLead sep (c :: cs) && !(sep.isEmpty) then
      acc.reverse :: jsSplitGo sep fuel ((c :: cs).drop sep.length) []
    else
      jsSplitGo sep fuel cs (c :: acc)

/-- JavaScript `s.split(sep)` for a non-empty separator (all separators used by
the sources — `'.'`, `'/'`, `'VC'`, `'\\'` — are non-empty). -/
def jsSplit (s sep : String) : List String :=
  (jsSplitGo sep.data (s.data.length + 1) s.data []).map (fun cs => String.mk cs)

/-! ## Node `path` model (`path.join`, `path.parse(..).ext`, `path.parse(..).name`)

Only the behaviour on the plain relative segments the sources build is modelled:
no `..`/`.` normalization occurs in any path the code assembles. -/

/-- Node `path.join a b` for plain segments: concatenation with a `/` separator,
which `path.join` already provides when the first segment ends in one. -/
def pathJoin (a b : String) : String :=
  if a.data.getLast? = some '/' then a ++ b else a ++ "/" ++ b

/-- The final path component (Node parses the part after the last `/`). -/
def pathBase (file : String) : String :=
  (jsSplit file "/").getLastD file

/-- Node `path.extname` / `path.parse(file).ext`: the suffix from the last `.`
of the base name, or `""` when there is no dot or only a leading dot. -/
def extname (file : String) : String :=
  let parts := jsSplit (pathBase file) "."
  match parts with
  | [] => ""
  | [_] => ""
  | first :: rest =>
    if first == "" && rest.length == 1 then ""
    else "." ++ (first :: rest).getLastD ""

/-- Node `path.parse(file).name`: the base name with the extension removed. -/
def parseName (file : String) : String :=
  let b := pathBase file
  String.mk (b.data.take (b.data.length - (extname file).data.length))

/-! ## `src/out/src/utils.js` — source-file classification and `getLanguage` -/

/-- `isCppSourceFile` from `utils.js`. -/
def isCppSourceFile (fileExtLower : String) : Bool :=
  [".cpp", ".cc", ".cxx"].any (fun ext => fileExtLower == ext)

/-- `isCSourceFile` from `utils.js`. -/
def isCSourceFile (fileExtLower : String) : Bool :=
  fileExtLower == ".c"

/-- `getLanguage` from `utils.js`.  The `fs.readdirSync` call (filtered to
plain files) is abstracted as the list `files` of file names found directly in
the folder. -/
def getLanguage (files : List String) : Languages :=
  let anyCppFile := files.any (fun file => isCppSourceFile (extname file))
  if anyCppFile then Languages.cpp else Languages.c

/-! ## `executeTask` (`src/out/src/utils.js`, task-handler part) — build synthesis -/

/-- The fields of `SettingsProvider` that `executeTask` reads. -/
structure TaskSettings where
  operatingSystem : OperatingSystems
  cCompiler : String
  cppCompiler : String
  cStandard : String
  cppStandard : String
  enableWarnings : Bool
  warningsAsError : Bool
  warnings : List String
  includePaths : List String
  compilerArgs : List String
  linkerArgs : List String
deriving DecidableEq, Repr

/-- JavaScript string coercion of an array (`'' + arr`): elements joined by `,`. -/
def jsArrayString (arr : List String) : String :=
  String.intercalate "," arr

/-- The `fullCompilerArgs` string assembled by `executeTask`:
warnings, then `--std=`, then the optimization/debug pair, then
`compilerArgs`, `linkerArgs` (JavaScript `+=` on a `string[]` coerces the array
to its comma-join, and an array is always truthy), then the include string. -/
def fullCompilerArgsOf (s : TaskSettings) (language : Languages) (buildMode : Builds) : String :=
  let standard := if language = Languages.cpp then s.cppStandard else s.cStandard
  let warnings₀ := if s.enableWarnings then String.intercalate " " s.warnings else ""
  let warnings := if s.enableWarnings && s.warningsAsError then warnings₀ ++ " -Werror" else warnings₀
  let includes := String.intercalate " -I " s.includePaths
  let fca₀ := ""
  let fca₁ := if warnings.length = 0 then fca₀ else fca₀ ++ warnings
  let fca₂ := if standard.length = 0 then fca₁ else fca₁ ++ (" --std=" ++ standard)
  let fca₃ := if buildMode = Builds.debug then fca₂ ++ " -g3 -O0" else fca₂ ++ " -O3 -DNDEBUG"
  let fca₄ := fca₃ ++ jsArrayString s.compilerArgs
  let fca₅ := fca₄ ++ jsArrayString s.linkerArgs
  if includes.length = 0 then fca₅ else fca₅ ++ includes

/-- The `continue` guards of the `executeTask` source-file loop: a file is
skipped when its extension does not match the folder's language. -/
def skippedByLoop (language : Languages) (file : String) : Bool :=
  if language = Languages.c ∧ ¬ isCSourceFile (extname file) = true then true
  else if language = Languages.cpp ∧ ¬ isCppSourceFile (extname file) = true then true
  else false

/-- Accumulated state of the `executeTask` loop: the command line built so far,
the object files pushed so far, and whether `mkdirRecursive(buildDir)` has run
(it runs only inside the loop body, when `pathExists(buildDir)` is false). -/
structure TaskAccum where
  commandLine : String
  objectFiles : List String
  dirCreated : Bool
deriving DecidableEq, Repr

/-- The `for (const file of files)` loop of `executeTask`.  `buildDirExists`
abstracts `pathExists(buildDir)` before the task ran. -/
def executeTaskLoop (compiler : String) (fullCompilerArgs : String)
    (activeFolder buildDir : String) (language : Languages) (buildDirExists : Bool) :
    List String → TaskAccum → TaskAccum
  | [], acc => acc
  | file :: rest, acc =>
    if skippedByLoop language file then
      executeTaskLoop compiler fullCompilerArgs activeFolder buildDir language buildDirExists
        rest acc
    else
      let fileBaseName := parseName file
      let filePath := pathJoin activeFolder file
      let objectFilePath := pathJoin buildDir (fileBaseName ++ ".o")
      let dirCreated := if ¬ (buildDirExists || acc.dirCreated) = true then true else acc.dirCreated
      let objectFiles := acc.objectFiles ++ [objectFilePath]
      let fullFileArgs := "-c " ++ filePath ++ " -o " ++ objectFilePath
      let commandLine :=
        if acc.commandLine.length = 0 then
          acc.commandLine ++ (compiler ++ " " ++ fullCompilerArgs ++ " " ++ fullFileArgs)
        else
          acc.commandLine ++ (" && " ++ compiler ++ " " ++ fullCompilerArgs ++ " " ++ fullFileArgs)
      executeTaskLoop compiler fullCompilerArgs activeFolder buildDir language buildDirExists
        rest ⟨commandLine, objectFiles, dirCreated⟩

/-- `executeTask` from the task handler, as the function computing the final
command line (the loop, then the appended link sub-command).  The directory
listing of `activeFolder` is abstracted as `files`; the `task.execution`
plumbing and `vscode.tasks.executeTask` call carry no synthesis logic. -/
def executeTask (s : TaskSettings) (activeFolder : String) (files : List String)
    (buildMode : Builds) (buildDirExists : Bool) : TaskAccum :=
  let language := getLanguage files
  let buildDir := pathJoin activeFolder ("build/" ++ buildModeValue buildMode ++ "/")
  let executableName :=
    if s.operatingSystem = OperatingSystems.windows then buildModeValue buildMode ++ "Main.exe"
    else buildModeValue buildMode ++ "Main"
  let executablePath := pathJoin buildDir executableName
  let compiler := if language = Languages.cpp then s.cppCompiler else s.cCompiler
  let fullCompilerArgs := fullCompilerArgsOf s language buildMode
  let acc := executeTaskLoop compiler fullCompilerArgs activeFolder buildDir language
    buildDirExists files ⟨"", [], false⟩
  let objectFilesStr := String.intercalate " " acc.objectFiles
  let fullObjectFileArgs := objectFilesStr ++ " -o " ++ executablePath
  let commandLine :=
    acc.commandLine ++ (" && " ++ compiler ++ " " ++ fullCompilerArgs ++ " " ++ fullObjectFileArgs)
  ⟨commandLine, acc.objectFiles, acc.dirCreated⟩

/-- The sub-list of the folder listing that the `executeTask` loop actually
compiles (the files surviving the `continue` guards). -/
def compiledSources (files : List String) : List String :=
  files.filter (fun file => ! skippedByLoop (getLanguage files) file)

/-! ## `src/out/src/utils.js` — `getArchitecture` (the compiler probe) -/

namespace utils

/-- `getArchitecture` from `utils.js`: runs `` `${compiler} -dumpmachine` ``
through `execSync` and substring-matches `'64'`; any thrown error yields
`x86`.  `execSyncResult` abstracts `execSync` (`none` = the invocation threw:
missing binary, non-zero exit, unreadable output). -/
def getArchitecture (execSyncResult : String → Option String) (compiler : String) :
    Architectures :=
  let command := compiler ++ " -dumpmachine"
  match execSyncResult command with
  | some output => if jsIncludes output "64" then Architectures.x64 else Architectures.x86
  | none => Architectures.x86

end utils

/-! ## `src/src/provider/settingsProvider.ts` — the `SettingsProvider` class -/

namespace SettingsProvider

def EXTENSION_NAME : String := "C_Cpp_Runner"

def DEFAULT_WARNINGS_UNIX : List String := ["-Wall", "-Wextra", "-Wpedantic"]

def DEFAULT_WARNINGS_MSVC : List String := ["/W4"]

def DEFAULT_MSVC_TOOLS_PATH : String := ""

/-- The `warnings` assignment of `loadLocalSettings` (lines 226–240):
`getSettingsValue(settingsLocal, 'warnings', DEFAULT_WARNINGS_UNIX)` followed by
the style normalization against `useMsvc`.  `storedWarnings` abstracts the
looked-up value (`none` = key absent from the document and from the global
configuration, so the default applies). -/
def loadWarnings (useMsvc : Bool) (storedWarnings : Option (List String)) : List String :=
  let warnings := storedWarnings.getD DEFAULT_WARNINGS_UNIX
  let msvcWarnings := warnings.any (fun warning => jsIncludes warning "/")
  if useMsvc && !msvcWarnings then DEFAULT_WARNINGS_MSVC
  else if !useMsvc && msvcWarnings then DEFAULT_WARNINGS_UNIX
  else warnings

/-- A warning list mixing the two styles, in the words of the claim: some
entries contain `/` and some contain `-W`. -/
def mixedStyleWarnings (warnings : List String) : Bool :=
  warnings.any (fun w => jsIncludes w "/") && warnings.any (fun w => jsIncludes w "-W")

/-- Modelled from the spec: `localSettingExist` lives in `src/utils/fileUtils`,
which is not among the sources.  Per the spec, the mandatory keys'
"simultaneous presence is the sole completeness test", so it reports whether
the given setting key is present in the parsed settings document (modelled as
an association list of keys to raw stored values). -/
def localSettingExist (name : String) (settingsJson : List (String × String)) : Bool :=
  settingsJson.any (fun kv => kv.1 == name)

/-- `commandsAlreadyStored` (lines 140–158).  The `pathExists(this._outputPath)`
guard and `readJsonFile` are folded into the `Option`: `none` models a missing
file as well as unreadable/malformed JSON (both make the source return
`false`). -/
def commandsAlreadyStored (settingsJson : Option (List (String × String))) : Bool :=
  match settingsJson with
  | none => false
  | some json =>
    localSettingExist (EXTENSION_NAME ++ ".cCompilerPath") json &&
    localSettingExist (EXTENSION_NAME ++ ".cppCompilerPath") json &&
    localSettingExist (EXTENSION_NAME ++ ".debuggerPath") json

/-- `searchMsvcToolsPath` (lines 380–417), as a function from the provider
state it reads to the new value of `this.msvcToolsPath`.  Every early `return`
leaves the field at its previous value `msvcToolsPath`.  `foldersInDirResult`
abstracts `foldersInDir(msvcBasePath)` (the listing of the version-numbered
directories); `pathExistsFn` abstracts `pathExists`.  The source's
`newst_version_path_splitted.length === 0` early return is unreachable
(JavaScript `split` never returns an empty array) and therefore has no
counterpart here. -/
def searchMsvcToolsPath (msvcBatchPath : String) (architecure : Option Architectures)
    (foldersInDirResult : List String) (pathExistsFn : String → Bool)
    (msvcToolsPath : String) : String :=
  let msvcBasePath := (jsSplit msvcBatchPath "VC").headD ""
  if msvcBasePath = "" then msvcToolsPath
  else
    let msvcBasePath := msvcBasePath ++ "VC/Tools/MSVC"
    let installed_versions := foldersInDirResult
    match installed_versions.getLast? with
    | none => msvcToolsPath
    | some newst_version_path =>
      if newst_version_path = "" then msvcToolsPath
      else
        let versionNumber := (jsSplit newst_version_path "\\").getLastD ""
        if versionNumber = "" then msvcToolsPath
        else
          let architecturePath :=
            if architecure = some Architectures.x64 ∨ architecure = none then "bin/Hostx64/x64"
            else "bin/Hostx86/x86"
          if pathExistsFn architecturePath = false then msvcToolsPath
          else pathJoin (pathJoin msvcBasePath versionNumber) architecturePath

/-- `getArchitecture` method of `SettingsProvider` (lines 419–442), returning
the assigned `(architecure, isCygwin)` pair together with the list of compiler
paths passed to `getCompilerArchitecture` (so that "no probe ran" is the
statement that this list is empty).  JavaScript truthiness of a string is
non-emptiness. -/
def getArchitecture (useMsvc : Bool) (cCompilerPath cppCompilerPath : String)
    (getCompilerArchitecture : String → Architectures × Bool) :
    (Architectures × Bool) × List String :=
  if useMsvc then ((Architectures.x64, false), [])
  else if ¬ cCompilerPath = "" then (getCompilerArchitecture cCompilerPath, [cCompilerPath])
  else if ¬ cppCompilerPath = "" then (getCompilerArchitecture cppCompilerPath, [cppCompilerPath])
  else ((Architectures.x64, false), [])

/-- JavaScript object-property assignment `settingsJson[settingName] = value`
on a parsed JSON object (an association list with the first binding of a key
authoritative): replace the first binding in place, or append a new one. -/
def assocSet {α : Type} : List (String × α) → String → α → List (String × α)
  | [], k, v => [(k, v)]
  | (k₀, v₀) :: rest, k, v =>
    if k₀ = k then (k, v) :: rest else (k₀, v₀) :: assocSet rest k v

/-- `update` (lines 586–596): read the persisted document (`none` models a
missing or malformed file, for which the source starts from `{}`), set the one
namespaced key, and write the result back. -/
def update {α : Type} (persisted : Option (List (String × α))) (key : String) (value : α) :
    List (String × α) :=
  let settingsJson := persisted.getD []
  let settingName := EXTENSION_NAME ++ "." ++ key
  assocSet settingsJson settingName value

end SettingsProvider

/-! ## `deleteCallback` and the provider's load strategies as action traces

`writeFileData`, `deleteCallback` (settingsProvider.ts lines 164–172) and the
constructor's cold-start branch (lines 96–101) are sequences of calls to the
provider's own stateful operations; they are embedded as the traces of those
calls.  `getActivationState` (part_001 lines 321–327) reads the stored
activation flag (or `false` when no state exists); it is abstracted as the
boolean `extensionIsActive`. -/

inductive ProviderAction
  | loadLocalSettings
  | storeSettings
  | loadGlobalSettings
  | createFileData
  | getArchitecture
deriving DecidableEq, Repr

/-- `writeFileData`: `this.loadLocalSettings(); this.storeSettings();`. -/
def writeFileData : List ProviderAction :=
  [ProviderAction.loadLocalSettings, ProviderAction.storeSettings]

/-- `deleteCallback`: runs `writeFileData` exactly when `getActivationState()`
is true. -/
def deleteCallback (extensionIsActive : Bool) : List ProviderAction :=
  if extensionIsActive then writeFileData else []

/-- The constructor's cold-start branch (`allInfoMissing`):
`this.loadGlobalSettings(); this.createFileData(); this.getArchitecture();`. -/
def coldStartLoad : List ProviderAction :=
  [ProviderAction.loadGlobalSettings, ProviderAction.createFileData,
    ProviderAction.getArchitecture]

/-! ## Helper lemmas -/

theorem string_length_eq_zero_iff (s : String) : s.length = 0 ↔ s = "" := by
  rw [String.ext_iff]
  show s.data.length = 0 ↔ s.data = []
  exact List.length_eq_zero

theorem cmd_string_length_ne_zero (c f a : String) :
    ¬ (c ++ " " ++ f ++ " " ++ a).length = 0 := by
  have h1 : (" " : String).length = 1 := rfl
  simp [String.length_append, h1]

theorem getLast?_mem_of_eq {α : Type} : ∀ {l : List α} {a : α}, l.getLast? = some a → a ∈ l
  | [], _, h => by simp at h
  | [x], a, h => by
    simp at h
    simp [h]
  | x :: y :: t, a, h => by
    rw [List.getLast?_cons_cons] at h
    exact List.mem_cons_of_mem x (getLast?_mem_of_eq h)

theorem sorted_le_getLast : ∀ {l : List String} {a : String},
    List.Sorted (fun x y => x ≤ y) l → l.getLast? = some a → ∀ v ∈ l, v ≤ a
  | [], _, _, h, _, _ => by simp at h
  | [x], a, _, h, v, hv => by
    simp at h hv
    subst h
    subst hv
    exact le_refl v
  | x :: y :: t, a, hs, h, v, hv => by
    rw [List.getLast?_cons_cons] at h
    rw [List.sorted_cons] at hs
    rcases List.mem_cons.mp hv with rfl | hv₂
    · exact hs.1 a (getLast?_mem_of_eq h)
    · exact sorted_le_getLast hs.2 h v hv₂

theorem lookup_assocSet {α : Type} :
    ∀ (l : List (String × α)) (name k : String) (v : α),
      List.lookup k (SettingsProvider.assocSet l name v) =
        if k = name then some v else List.lookup k l
  | [], name, k, v => by
    by_cases h : k = name
    · simp [SettingsProvider.assocSet, List.lookup, h]
    · have hb : (k == name) = false := by simp [h]
      simp [SettingsProvider.assocSet, List.lookup, hb, h]
  | (k₀, v₀) :: t, name, k, v => by
    by_cases h₀ : k₀ = name
    · subst h₀
      by_cases h : k = k₀
      · subst h
        simp [SettingsProvider.assocSet, List.lookup]
      · have hb : (k == k₀) = false := by simp [h]
        simp [SettingsProvider.assocSet, List.lookup, hb, h]
    · have hb₀ : ¬ k₀ = name := h₀
      by_cases h : k = k₀
      · subst h
        have hkn : ¬ k = name := hb₀
        simp [SettingsProvider.assocSet, h₀, List.lookup, hkn]
      · have hb : (k == k₀) = false := by simp [h]
        rw [show SettingsProvider.assocSet ((k₀, v₀) :: t) name v =
              (k₀, v₀) :: SettingsProvider.assocSet t name v from by
            simp [SettingsProvider.assocSet, h₀]]
        simp [List.lookup, hb]
        exact lookup_assocSet t name k v

theorem localSettingExist_iff (name : String) (d : List (String × String)) :
    SettingsProvider.localSettingExist name d = true ↔ name ∈ d.map Prod.fst := by
  constructor
  · intro h
    obtain ⟨kv, hmem, heq⟩ := List.any_eq_true.mp h
    exact List.mem_map.mpr ⟨kv, hmem, beq_iff_eq.mp heq⟩
  · intro h
    obtain ⟨kv, hmem, heq⟩ := List.mem_map.mp h
    exact List.any_eq_true.mpr ⟨kv, hmem, beq_iff_eq.mpr heq⟩

theorem localSettingExist_map_values (name : String) (d : List (String × String))
    (f : String → String) :
    SettingsProvider.localSettingExist name (d.map (fun kv => (kv.1, f kv.2))) =
      SettingsProvider.localSettingExist name d := by
  induction d with
  | nil => rfl
  | cons kv t ih =>
    simp [SettingsProvider.localSettingExist] at ih ⊢
    rw [ih]

/-! ## Claims -/

/-- Claim C2, counterexample: with `useMsvc = true` and the persisted warning
list `["/W4", "-Wall"]` — a mixed-style list, one entry with `/` and one with
`-W` — `loadLocalSettings` detects an MSVC-style entry, performs no rewrite,
and leaves the mixed-style list in effect, contradicting the claim that a
mixed-style list is never left in effect after a load. -/
theorem claim_C2_counterexample :
    SettingsProvider.loadWarnings true (some ["/W4", "-Wall"]) = ["/W4", "-Wall"] ∧
    SettingsProvider.mixedStyleWarnings
      (SettingsProvider.loadWarnings true (some ["/W4", "-Wall"])) = true := by
  constructor <;> decide

/-- Claim C2 (amended): loading normalizes a style-mismatched warning list to
the style-correct default — MSVC defaults when `useMsvc` is true and no loaded
entry contains `/`, Unix defaults when `useMsvc` is false and some loaded entry
contains `/` — and when `useMsvc` is false the effective list never contains a
`/`-style entry; but when `useMsvc` is true any list with at least one
`/`-entry (including a mixed-style one) is kept unchanged.  A missing key
loads the Unix defaults and then normalizes them like any other list. -/
theorem claim_C2 :
    (∀ w : List String, (w.any (fun x => jsIncludes x "/")) = false →
        SettingsProvider.loadWarnings true (some w) = SettingsProvider.DEFAULT_WARNINGS_MSVC) ∧
    (∀ w : List String, (w.any (fun x => jsIncludes x "/")) = true →
        SettingsProvider.loadWarnings false (some w) = SettingsProvider.DEFAULT_WARNINGS_UNIX) ∧
    (∀ w : List String,
        (SettingsProvider.loadWarnings false (some w)).any (fun x => jsIncludes x "/") = false) ∧
    (∀ w : List String, (w.any (fun x => jsIncludes x "/")) = true →
        SettingsProvider.loadWarnings true (some w) = w) ∧
    (∀ useMsvc : Bool,
        SettingsProvider.loadWarnings useMsvc none =
          if useMsvc then SettingsProvider.DEFAULT_WARNINGS_MSVC
          else SettingsProvider.DEFAULT_WARNINGS_UNIX) := by
  refine ⟨?_, ?_, ?_, ?_, ?_⟩
  · intro w h
    simp [SettingsProvider.loadWarnings, h]
  · intro w h
    simp [SettingsProvider.loadWarnings, h]
  · intro w
    by_cases h : w.any (fun x => jsIncludes x "/") = true
    · simp [SettingsProvider.loadWarnings, h]
      decide
    · simp only [Bool.not_eq_true] at h
      simp [SettingsProvider.loadWarnings, h]
  · intro w h
    simp [SettingsProvider.loadWarnings, h]
  · intro useMsvc
    cases useMsvc <;> decide

/-- Claim C2, witness: a Unix-style list under `useMsvc = true` becomes the
MSVC default, and an MSVC-style list under `useMsvc = false` becomes the Unix
default. -/
theorem claim_C2_witness :
    SettingsProvider.loadWarnings true (some ["-Wall", "-Wextra", "-Wpedantic"]) =
      SettingsProvider.DEFAULT_WARNINGS_MSVC ∧
    SettingsProvider.loadWarnings false (some ["/W4"]) =
      SettingsProvider.DEFAULT_WARNINGS_UNIX :=
  ⟨claim_C2.1 ["-Wall", "-Wextra", "-Wpedantic"] (by decide),
   claim_C2.2.1 ["/W4"] (by decide)⟩

/-- Claim C4: the completeness test `commandsAlreadyStored` holds exactly when
the three keys `C_Cpp_Runner.cCompilerPath`, `C_Cpp_Runner.cppCompilerPath`
and `C_Cpp_Runner.debuggerPath` are all present in the persisted document; a
missing or malformed document fails the test; and the test is invariant under
arbitrary rewriting of the stored values, so it cannot check that the stored
paths denote valid executables. -/
theorem claim_C4 (d : List (String × String)) :
    (SettingsProvider.commandsAlreadyStored (some d) = true ↔
      ("C_Cpp_Runner.cCompilerPath" ∈ d.map Prod.fst ∧
       "C_Cpp_Runner.cppCompilerPath" ∈ d.map Prod.fst ∧
       "C_Cpp_Runner.debuggerPath" ∈ d.map Prod.fst)) ∧
    SettingsProvider.commandsAlreadyStored none = false ∧
    (∀ f : String → String,
      SettingsProvider.commandsAlreadyStored (some (d.map (fun kv => (kv.1, f kv.2)))) =
        SettingsProvider.commandsAlreadyStored (some d)) := by
  refine ⟨?_, rfl, ?_⟩
  · have h₁ : SettingsProvider.EXTENSION_NAME ++ ".cCompilerPath" =
        "C_Cpp_Runner.cCompilerPath" := rfl
    have h₂ : SettingsProvider.EXTENSION_NAME ++ ".cppCompilerPath" =
        "C_Cpp_Runner.cppCompilerPath" := rfl
    have h₃ : SettingsProvider.EXTENSION_NAME ++ ".debuggerPath" =
        "C_Cpp_Runner.debuggerPath" := rfl
    simp only [SettingsProvider.commandsAlreadyStored, h₁, h₂, h₃, Bool.and_eq_true,
      localSettingExist_iff]
    tauto
  · intro f
    simp [SettingsProvider.commandsAlreadyStored, localSettingExist_map_values]

/-- Claim C4, witness: a document holding the three mandatory keys (with an
unrelated extra key, and without any check of the stored values) passes the
completeness test. -/
theorem claim_C4_witness :
    SettingsProvider.commandsAlreadyStored (some
      [("C_Cpp_Runner.cCompilerPath", "gcc"), ("C_Cpp_Runner.cppCompilerPath", "g++"),
       ("C_Cpp_Runner.debuggerPath", "gdb"), ("unrelated.key", "x")]) = true :=
  (claim_C4 _).1.mpr ⟨by decide, by decide, by decide⟩

/-- Claim C6: the architecture probe returns `x64` exactly when invoking the
compiler with `-dumpmachine` succeeds and the output contains `"64"`; when the
invocation fails (modelled as `none`: missing binary, non-zero exit,
unreadable output) it returns `x86`, and being a total function it raises no
error. -/
theorem claim_C6 (execSyncResult : String → Option String) (compiler : String) :
    (utils.getArchitecture execSyncResult compiler = Architectures.x64 ↔
      ∃ output, execSyncResult (compiler ++ " -dumpmachine") = some output ∧
        jsIncludes output "64" = true) ∧
    (execSyncResult (compiler ++ " -dumpmachine") = none →
      utils.getArchitecture execSyncResult compiler = Architectures.x86) := by
  constructor
  · cases hr : execSyncResult (compiler ++ " -dumpmachine") with
    | none => simp [utils.getArchitecture, hr]
    | some out =>
      by_cases h64 : jsIncludes out "64" = true
      · simp [utils.getArchitecture, hr, h64]
      · simp [utils.getArchitecture, hr, h64]
  · intro h
    simp [utils.getArchitecture, h]

/-- Claim C6, witness: a throwing invocation yields `x86`, and an invocation
printing a machine string containing `64` yields `x64`. -/
theorem claim_C6_witness :
    utils.getArchitecture (fun _ => none) "gcc" = Architectures.x86 ∧
    utils.getArchitecture (fun _ => some "x86_64-linux-gnu") "gcc" = Architectures.x64 :=
  ⟨(claim_C6 (fun _ => none) "gcc").2 rfl,
   (claim_C6 (fun _ => some "x86_64-linux-gnu") "gcc").1.mpr
     ⟨"x86_64-linux-gnu", rfl, by decide⟩⟩

/-- Claim C7: `update key value` rewrites exactly the entry
`C_Cpp_Runner.key`: looking up that key in the result yields `value`, looking
up any other key yields whatever the prior document stored for it (keys of
unrelated tooling included); and when the prior document is missing or
malformed the result holds exactly the one updated entry. -/
theorem claim_C7 {α : Type} (d : List (String × α)) (key : String) (value : α) :
    (∀ k : String,
      List.lookup k (SettingsProvider.update (some d) key value) =
        if k = SettingsProvider.EXTENSION_NAME ++ "." ++ key then some value
        else List.lookup k d) ∧
    SettingsProvider.update (α := α) none key value =
      [(SettingsProvider.EXTENSION_NAME ++ "." ++ key, value)] := by
  constructor
  · intro k
    exact lookup_assocSet d (SettingsProvider.EXTENSION_NAME ++ "." ++ key) k value
  · rfl

/-- Claim C8, counterexample: the reaction to a configuration-file deletion
with the activation flag set is `writeFileData`, whose trace neither equals the
constructor's cold-start trace nor contains the re-probe
(`getArchitecture`) or the properties-document write (`createFileData`) or the
reload from global defaults (`loadGlobalSettings`) the claim promises. -/
theorem claim_C8_counterexample :
    deleteCallback true ≠ coldStartLoad ∧
    (deleteCallback true).contains ProviderAction.getArchitecture = false ∧
    (deleteCallback true).contains ProviderAction.createFileData = false ∧
    (deleteCallback true).contains ProviderAction.loadGlobalSettings = false := by
  decide

/-- Claim C8 (amended): on deletion of a configuration file, when the
activation flag is set the provider re-runs the local settings load and then
persists the settings document (`loadLocalSettings` followed by
`storeSettings`) — not the cold-start load; when the flag is unset the
deletion is ignored and no provider operation runs. -/
theorem claim_C8 :
    deleteCallback true = [ProviderAction.loadLocalSettings, ProviderAction.storeSettings] ∧
    deleteCallback false = [] := by
  decide

/-- Claim C9: with `useMsvc` set, the `getArchitecture` method assigns
architecture `x64` and `isCygwin = false` unconditionally and passes no
compiler path to `getCompilerArchitecture` (the probe list is empty), so in
MSVC mode the architecture is never `x86` and never the result of a
detection. -/
theorem claim_C9 (cCompilerPath cppCompilerPath : String)
    (getCompilerArchitecture : String → Architectures × Bool) :
    SettingsProvider.getArchitecture true cCompilerPath cppCompilerPath
        getCompilerArchitecture = ((Architectures.x64, false), []) ∧
    (SettingsProvider.getArchitecture true cCompilerPath cppCompilerPath
        getCompilerArchitecture).1.1 ≠ Architectures.x86 := by
  constructor
  · rfl
  · intro h
    simp [SettingsProvider.getArchitecture] at h

theorem not_skipped_c (f : String) :
    (! skippedByLoop Languages.c f) = isCSourceFile (extname f) := by
  simp [skippedByLoop]

theorem not_skipped_cpp (f : String) :
    (! skippedByLoop Languages.cpp f) = isCppSourceFile (extname f) := by
  simp [skippedByLoop]

/-- Claim C3: when no directly listed file has extension `.cpp`, `.cc` or
`.cxx`, the language resolves to `c` and the compile set is exactly the `.c`
files; when at least one such file is present, the language resolves to `cpp`,
the compile set is exactly the `.cpp`/`.cc`/`.cxx` files, and every plain `.c`
file of the same folder is excluded from it. -/
theorem claim_C3 (files : List String) :
    ((files.any (fun f => isCppSourceFile (extname f))) = false →
      getLanguage files = Languages.c ∧
      compiledSources files = files.filter (fun f => isCSourceFile (extname f))) ∧
    ((files.any (fun f => isCppSourceFile (extname f))) = true →
      getLanguage files = Languages.cpp ∧
      compiledSources files = files.filter (fun f => isCppSourceFile (extname f)) ∧
      (∀ f ∈ files, isCSourceFile (extname f) = true → f ∉ compiledSources files)) := by
  constructor
  · intro h
    have hlang : getLanguage files = Languages.c := by simp [getLanguage, h]
    refine ⟨hlang, ?_⟩
    simp [compiledSources, hlang, not_skipped_c]
  · intro h
    have hlang : getLanguage files = Languages.cpp := by simp [getLanguage, h]
    have heq : compiledSources files = files.filter (fun f => isCppSourceFile (extname f)) := by
      simp [compiledSources, hlang, not_skipped_cpp]
    refine ⟨hlang, heq, ?_⟩
    intro f _ hC hmem
    rw [heq] at hmem
    have hcpp := (List.mem_filter.mp hmem).2
    have hext : extname f = ".c" := beq_iff_eq.mp hC
    rw [hext] at hcpp
    simp [isCppSourceFile] at hcpp

/-- Claim C3, witness: a folder with only a `.c` source and a header compiles
as C, and a folder with a `.c` file next to a `.cpp` file compiles as C++ with
the `.c` file excluded. -/
theorem claim_C3_witness :
    (getLanguage ["main.c", "util.h"] = Languages.c ∧
      compiledSources ["main.c", "util.h"] =
        List.filter (fun f => isCSourceFile (extname f)) ["main.c", "util.h"]) ∧
    (getLanguage ["main.c", "app.cpp"] = Languages.cpp ∧
      compiledSources ["main.c", "app.cpp"] =
        List.filter (fun f => isCppSourceFile (extname f)) ["main.c", "app.cpp"] ∧
      (∀ f ∈ ["main.c", "app.cpp"], isCSourceFile (extname f) = true →
        f ∉ compiledSources ["main.c", "app.cpp"])) :=
  ⟨(claim_C3 ["main.c", "util.h"]).1 (by decide),
   (claim_C3 ["main.c", "app.cpp"]).2 (by decide)⟩

/-- Claim C5: in MSVC mode the tools-path derivation returns the path built
from the last entry of the version-directory listing (which is its
lexicographic maximum whenever the listing is lexicographically sorted) with
the host-architecture subdirectory appended (`bin/Hostx64/x64` for `x64` or an
undefined architecture, `bin/Hostx86/x86` otherwise); and any missing segment
— empty base path, empty listing, or missing architecture subdirectory —
leaves `msvcToolsPath` at its default empty value, the derivation being a
total function so the surrounding load always completes. -/
theorem claim_C5 (msvcBatchPath : String) (architecure : Option Architectures)
    (listing : List String) (pathExistsFn : String → Bool) :
    ((jsSplit msvcBatchPath "VC").headD "" = "" →
      SettingsProvider.searchMsvcToolsPath msvcBatchPath architecure listing pathExistsFn
        SettingsProvider.DEFAULT_MSVC_TOOLS_PATH = SettingsProvider.DEFAULT_MSVC_TOOLS_PATH) ∧
    (listing = [] →
      SettingsProvider.searchMsvcToolsPath msvcBatchPath architecure listing pathExistsFn
        SettingsProvider.DEFAULT_MSVC_TOOLS_PATH = SettingsProvider.DEFAULT_MSVC_TOOLS_PATH) ∧
    (pathExistsFn (if architecure = some Architectures.x64 ∨ architecure = none
        then "bin/Hostx64/x64" else "bin/Hostx86/x86") = false →
      SettingsProvider.searchMsvcToolsPath msvcBatchPath architecure listing pathExistsFn
        SettingsProvider.DEFAULT_MSVC_TOOLS_PATH = SettingsProvider.DEFAULT_MSVC_TOOLS_PATH) ∧
    (∀ last : String, listing.getLast? = some last →
      (jsSplit last "\\").getLastD "" ≠ "" →
      (jsSplit msvcBatchPath "VC").headD "" ≠ "" →
      pathExistsFn (if architecure = some Architectures.x64 ∨ architecure = none
        then "bin/Hostx64/x64" else "bin/Hostx86/x86") = true →
      (SettingsProvider.searchMsvcToolsPath msvcBatchPath architecure listing pathExistsFn
          SettingsProvider.DEFAULT_MSVC_TOOLS_PATH =
        pathJoin (pathJoin ((jsSplit msvcBatchPath "VC").headD "" ++ "VC/Tools/MSVC")
          ((jsSplit last "\\").getLastD ""))
          (if architecure = some Architectures.x64 ∨ architecure = none
            then "bin/Hostx64/x64" else "bin/Hostx86/x86")) ∧
      (List.Sorted (fun a b => a ≤ b) listing → ∀ v ∈ listing, v ≤ last)) := by
  refine ⟨?_, ?_, ?_, ?_⟩
  · intro h
    simp only [SettingsProvider.searchMsvcToolsPath]
    rw [if_pos h]
  · intro h
    subst h
    simp only [SettingsProvider.searchMsvcToolsPath]
    by_cases hbase : (jsSplit msvcBatchPath "VC").headD "" = ""
    · rw [if_pos hbase]
    · rw [if_neg hbase]
      rfl
  · intro hpe
    by_cases hbase : (jsSplit msvcBatchPath "VC").headD "" = ""
    · simp only [SettingsProvider.searchMsvcToolsPath]
      rw [if_pos hbase]
    · cases hl : listing.getLast? with
      | none =>
        simp only [SettingsProvider.searchMsvcToolsPath, hl]
        rw [if_neg hbase]
      | some last =>
        simp only [SettingsProvider.searchMsvcToolsPath, hl]
        rw [if_neg hbase]
        by_cases hlast : last = ""
        · rw [if_pos hlast]
        · rw [if_neg hlast]
          by_cases hver : (jsSplit last "\\").getLastD "" = ""
          · rw [if_pos hver]
          · rw [if_neg hver, if_pos hpe]
  · intro last hl hver hbase hpe
    constructor
    · have hlast : ¬ last = "" := by
        intro h
        rw [h] at hver
        exact hver (by decide)
      have hpe₂ : ¬ pathExistsFn (if architecure = some Architectures.x64 ∨ architecure = none
          then "bin/Hostx64/x64" else "bin/Hostx86/x86") = false := by
        rw [hpe]
        decide
      simp only [SettingsProvider.searchMsvcToolsPath, hl]
      rw [if_neg hbase, if_neg hlast, if_neg hver, if_neg hpe₂]
    · intro hs v hv
      exact sorted_le_getLast hs hl v hv

/-- Claim C5, witness: a batch path rooted at `C:/VS/VC`, two installed
versions in sorted order, an `x64` host (architecture undefined defaults to
the `x64` subdirectory) and an existing architecture directory derive the
newest version's tools path. -/
theorem claim_C5_witness :
    SettingsProvider.searchMsvcToolsPath "C:/VS/VC/vcvarsall.bat" none
      ["14.20.1", "14.30.2"] (fun _ => true) SettingsProvider.DEFAULT_MSVC_TOOLS_PATH =
      "C:/VS/VC/Tools/MSVC/14.30.2/bin/Hostx64/x64" := by
  have h := ((claim_C5 "C:/VS/VC/vcvarsall.bat" none ["14.20.1", "14.30.2"]
    (fun _ => true)).2.2.2 "14.30.2" (by decide) (by decide) (by decide) rfl).1
  rw [h]
  decide

theorem string_append_eq_empty_iff (a b : String) : a ++ b = "" ↔ a = "" ∧ b = "" := by
  constructor
  · intro h
    have hl := congrArg String.length h
    rw [String.length_append] at hl
    have h0 : ("" : String).length = 0 := rfl
    rw [h0] at hl
    exact ⟨(string_length_eq_zero_iff a).mp (by omega),
      (string_length_eq_zero_iff b).mp (by omega)⟩
  · rintro ⟨rfl, rfl⟩
    rfl

theorem append_left_ne_empty (a b : String) (ha : a ≠ "") : a ++ b ≠ "" := by
  intro h
  exact ha ((string_append_eq_empty_iff a b).mp h).1

theorem executeTaskLoop_all_skipped (compiler fca activeFolder buildDir : String)
    (language : Languages) (bde : Bool) :
    ∀ (files : List String) (acc : TaskAccum),
      (∀ f ∈ files, skippedByLoop language f = true) →
      executeTaskLoop compiler fca activeFolder buildDir language bde files acc = acc
  | [], _, _ => rfl
  | f :: t, acc, h => by
    have hf : skippedByLoop language f = true := h f (List.mem_cons_self f t)
    simp only [executeTaskLoop, hf, if_true]
    exact executeTaskLoop_all_skipped compiler fca activeFolder buildDir language bde t acc
      (fun g hg => h g (List.mem_cons_of_mem f hg))

/-- Claim C10: when no listed file matches the resolved language, the
synthesized command line is still non-empty — it is exactly the link
sub-command over an empty object-file list, with the leading ` && ` separator
contributed by the empty compile accumulator — no object file is collected,
and the build directory is never created (creation only happens inside the
per-source-file loop). -/
theorem claim_C10 (s : TaskSettings) (activeFolder : String) (files : List String)
    (buildMode : Builds) (buildDirExists : Bool)
    (h : ∀ f ∈ files, skippedByLoop (getLanguage files) f = true) :
    executeTask s activeFolder files buildMode buildDirExists =
      ⟨" && " ++ (if getLanguage files = Languages.cpp then s.cppCompiler else s.cCompiler) ++
          " " ++ fullCompilerArgsOf s (getLanguage files) buildMode ++ " " ++
          (" -o " ++ pathJoin (pathJoin activeFolder ("build/" ++ buildModeValue buildMode ++ "/"))
            (if s.operatingSystem = OperatingSystems.windows
              then buildModeValue buildMode ++ "Main.exe"
              else buildModeValue buildMode ++ "Main")),
        [], false⟩ ∧
    (executeTask s activeFolder files buildMode buildDirExists).commandLine ≠ "" := by
  have hloop := executeTaskLoop_all_skipped
    (if getLanguage files = Languages.cpp then s.cppCompiler else s.cCompiler)
    (fullCompilerArgsOf s (getLanguage files) buildMode)
    activeFolder (pathJoin activeFolder ("build/" ++ buildModeValue buildMode ++ "/"))
    (getLanguage files) buildDirExists files ⟨"", [], false⟩ h
  have hint : String.intercalate " " ([] : List String) = "" := rfl
  have heq : executeTask s activeFolder files buildMode buildDirExists =
      ⟨" && " ++ (if getLanguage files = Languages.cpp then s.cppCompiler else s.cCompiler) ++
          " " ++ fullCompilerArgsOf s (getLanguage files) buildMode ++ " " ++
          (" -o " ++ pathJoin (pathJoin activeFolder ("build/" ++ buildModeValue buildMode ++ "/"))
            (if s.operatingSystem = OperatingSystems.windows
              then buildModeValue buildMode ++ "Main.exe"
              else buildModeValue buildMode ++ "Main")),
        [], false⟩ := by
    simp only [executeTask, hloop, hint]
    have hsep : (("" : String) ++ " -o ") = " -o " := rfl
    simp [String.empty_append, hsep]
  refine ⟨heq, ?_⟩
  rw [heq]
  exact append_left_ne_empty _ _ (append_left_ne_empty _ _ (append_left_ne_empty _ _
    (append_left_ne_empty _ _ (append_left_ne_empty _ _ (by decide)))))

/-- Claim C10, witness: a folder listing holding only `notes.txt` resolves to
language C, compiles nothing, and still produces the lone link sub-command
with its leading separator, creating no build directory. -/
theorem claim_C10_witness :
    executeTask
        { operatingSystem := OperatingSystems.linux, cCompiler := "gcc", cppCompiler := "g++",
          cStandard := "", cppStandard := "", enableWarnings := true, warningsAsError := false,
          warnings := ["-Wall"], includePaths := [], compilerArgs := [], linkerArgs := [] }
        "f" ["notes.txt"] Builds.debug false =
      ⟨" && gcc -Wall -g3 -O0  -o f/build/debug/debugMain", [], false⟩ ∧
    (executeTask
        { operatingSystem := OperatingSystems.linux, cCompiler := "gcc", cppCompiler := "g++",
          cStandard := "", cppStandard := "", enableWarnings := true, warningsAsError := false,
          warnings := ["-Wall"], includePaths := [], compilerArgs := [], linkerArgs := [] }
        "f" ["notes.txt"] Builds.debug false).commandLine ≠ "" := by
  have h := claim_C10
    { operatingSystem := OperatingSystems.linux, cCompiler := "gcc", cppCompiler := "g++",
      cStandard := "", cppStandard := "", enableWarnings := true, warningsAsError := false,
      warnings := ["-Wall"], includePaths := [], compilerArgs := [], linkerArgs := [] }
    "f" ["notes.txt"] Builds.debug false (by decide)
  refine ⟨?_, h.2⟩
  rw [h.1]
  decide

theorem intercalate_pair (a b : String) : String.intercalate " " [a, b] = a ++ " " ++ b := rfl

set_option maxHeartbeats 1000000

/-- Claim C1: for a folder listing `["a.cpp", "b.cpp"]` in release mode, the
synthesized command line is exactly the compile sub-command for `a.cpp`
producing `a.o`, the ` && ` separator, the compile sub-command for `b.cpp`
producing `b.o`, the ` && ` separator, and the link sub-command combining
`a.o b.o` into `releaseMain` (`releaseMain.exe` on Windows), in listing order;
and in every compile sub-command the flags occur as the concatenation, in this
fixed order: warnings, language standard, optimization/debug pair (`-g3 -O0`
in debug, `-O3 -DNDEBUG` in release), extra compiler args, extra linker args,
include-path flags. -/
theorem claim_C1 (s : TaskSettings) (activeFolder : String) (buildDirExists : Bool) :
    (executeTask s activeFolder ["a.cpp", "b.cpp"] Builds.release buildDirExists).commandLine =
      s.cppCompiler ++ " " ++ fullCompilerArgsOf s Languages.cpp Builds.release ++ " " ++
        ("-c " ++ pathJoin activeFolder "a.cpp" ++ " -o " ++
          pathJoin (pathJoin activeFolder "build/release/") "a.o") ++
      (" && " ++ s.cppCompiler ++ " " ++ fullCompilerArgsOf s Languages.cpp Builds.release ++
        " " ++ ("-c " ++ pathJoin activeFolder "b.cpp" ++ " -o " ++
          pathJoin (pathJoin activeFolder "build/release/") "b.o")) ++
      (" && " ++ s.cppCompiler ++ " " ++ fullCompilerArgsOf s Languages.cpp Builds.release ++
        " " ++ (pathJoin (pathJoin activeFolder "build/release/") "a.o" ++ " " ++
          pathJoin (pathJoin activeFolder "build/release/") "b.o" ++ " -o " ++
          pathJoin (pathJoin activeFolder "build/release/")
            (if s.operatingSystem = OperatingSystems.windows then "releaseMain.exe"
              else "releaseMain"))) ∧
    (∀ (language : Languages) (buildMode : Builds),
      fullCompilerArgsOf s language buildMode =
        (if s.enableWarnings then
          (if s.warningsAsError then String.intercalate " " s.warnings ++ " -Werror"
            else String.intercalate " " s.warnings)
          else "") ++
        (if (if language = Languages.cpp then s.cppStandard else s.cStandard) = "" then ""
          else " --std=" ++ (if language = Languages.cpp then s.cppStandard else s.cStandard)) ++
        (if buildMode = Builds.debug then " -g3 -O0" else " -O3 -DNDEBUG") ++
        jsArrayString s.compilerArgs ++ jsArrayString s.linkerArgs ++
        String.intercalate " -I " s.includePaths) := by
  constructor
  · have hlang : getLanguage ["a.cpp", "b.cpp"] = Languages.cpp := by decide
    have hskipA : skippedByLoop Languages.cpp "a.cpp" = false := by decide
    have hskipB : skippedByLoop Languages.cpp "b.cpp" = false := by decide
    have hao : parseName "a.cpp" ++ ".o" = "a.o" := rfl
    have hbo : parseName "b.cpp" ++ ".o" = "b.o" := rfl
    have hbdir : ("build/" ++ buildModeValue Builds.release ++ "/") = "build/release/" := rfl
    have hexe1 : buildModeValue Builds.release ++ "Main.exe" = "releaseMain.exe" := rfl
    have hexe2 : buildModeValue Builds.release ++ "Main" = "releaseMain" := rfl
    have h0 : ("" : String).length = 0 := rfl
    simp only [executeTask, executeTaskLoop, hlang, hbdir, hexe1, hexe2, hskipA, hskipB,
      hao, hbo, h0, cmd_string_length_ne_zero, intercalate_pair, String.empty_append,
      Bool.false_eq_true, if_false, if_true, reduceIte]
    simp [cmd_string_length_ne_zero, String.empty_append, intercalate_pair]
  · intro language buildMode
    simp only [fullCompilerArgsOf, jsArrayString]
    by_cases hw : s.enableWarnings <;> by_cases he : s.warningsAsError <;>
      by_cases hj : String.intercalate " " s.warnings = "" <;>
      by_cases hstd : (if language = Languages.cpp then s.cppStandard else s.cStandard) = "" <;>
      cases buildMode <;>
      by_cases hinc : String.intercalate " -I " s.includePaths = "" <;>
      simp [hw, he, hj, hstd, hinc, string_length_eq_zero_iff, string_append_eq_empty_iff,
        String.empty_append, String.append_empty, String.append_assoc]
